import Mathlib

/-!
Verification development for the `Indexer` class of `indexer.py`.

The Python code is shallowly embedded as follows.

* Machine-level values: file sizes (`os.path.getsize`) are natural numbers,
  timestamps are integers, and the numeric value produced by
  `Indexer.__parse_size` (a Python `float` obtained from a decimal digit
  string) is modelled exactly as a rational number `ℚ`.
* Python exceptions are modelled by the `PyErr` type and fallible code
  returns `Except PyErr _`.  `ValueError` and `KeyError` carry their message
  or key.
* The operating-system interface (`os.walk`, `os.path.*`, `time.ctime`) is
  an input of the model: each probed file comes with the outcome of each
  `os.path` primitive (`some v` for a normal return, `none` when the call
  raises), and `ctime` is an arbitrary function parameter.
* Strings are handled at the `List Char` level.  `str.upper`, `str.lower`,
  `\d` and `\s` are modelled on the ASCII fragment, which covers every
  string the claims mention.
-/

/-- Python exceptions raised by the embedded code: `ValueError msg` and
`KeyError key`. -/
inductive PyErr where
  | valueError (msg : String)
  | keyError (key : String)
deriving DecidableEq

/-- ASCII model of the regex class `\d` (`Char.isDigit` is `'0'–'9'`). -/
def isPyDigit (c : Char) : Bool := c.isDigit

/-- ASCII model of the regex class `\s`: the six ASCII whitespace
characters matched by Python's `\s`. -/
def isPySpace (c : Char) : Bool :=
  c == ' ' || c == '\t' || c == '\n' || c == '\r' || c == Char.ofNat 11 || c == Char.ofNat 12

/-- The regex character class `[KMGT]` from `Indexer.__parse_size`. -/
def isUnitChar (c : Char) : Bool :=
  c == 'K' || c == 'M' || c == 'G' || c == 'T'

/-- Matching of the whole pattern `\d+\.*\d*\s*[KMGT]*B` against a string
(as written in `Indexer.__parse_size`, with `*`-quantified dot and unit
classes).  All adjacent character classes are pairwise disjoint and none
overlaps the literal `B`, so greedy maximal munch is equivalent to the
backtracking regex semantics. -/
def matchSizeCore (cs : List Char) : Bool :=
  let r1 := cs.dropWhile isPyDigit
  let r2 := r1.dropWhile (fun c => c == '.')
  let r3 := r2.dropWhile isPyDigit
  let r4 := r3.dropWhile isPySpace
  let r5 := r4.dropWhile isUnitChar
  !(cs.takeWhile isPyDigit).isEmpty && (r5 == ['B'])

/-- `re.search(r"^\d+\.*\d*\s*[KMGT]*B$", s)`: with both anchors this is a
full match, except that Python's `$` also matches just before a single
trailing newline; `group(0)` is then the string without that newline. -/
def regexFullMatch (cs : List Char) : Option (List Char) :=
  if matchSizeCore cs then some cs
  else if cs.getLast? == some '\n' && matchSizeCore cs.dropLast then some cs.dropLast
  else none

/-- `re.search(r"^\d+\.*\d*", valid_str).group(0)`: the maximal prefix made
of digits, then dots, then digits (always succeeds on a string accepted by
`matchSizeCore`, which starts with a digit). -/
def extractNum (cs : List Char) : List Char :=
  let a := cs.takeWhile isPyDigit
  let r1 := cs.dropWhile isPyDigit
  let b := r1.takeWhile (fun c => c == '.')
  let r2 := r1.dropWhile (fun c => c == '.')
  a ++ b ++ r2.takeWhile isPyDigit

/-- `re.search(r"[KMGT]*B$", valid_str).group(0)`: the trailing run of
`[KMGT]` characters together with the final `B`.  On strings accepted by
`matchSizeCore` the last character is always `B`. -/
def extractUnit (cs : List Char) : List Char :=
  match cs.reverse with
  | [] => []
  | c :: t => if c == 'B' then (t.takeWhile isUnitChar).reverse ++ [c] else []

/-- Numeric value of a decimal digit character. -/
def charDigitVal (c : Char) : ℕ := c.toNat - 48

/-- Value of a string of decimal digit characters. -/
def natOfDigitChars (cs : List Char) : ℕ :=
  cs.foldl (fun a c => 10 * a + charDigitVal c) 0

/-- The `ValueError` produced by Python's `float` on a malformed literal. -/
def pyFloatErr : PyErr := PyErr.valueError "could not convert string to float"

/-- Python's `float` on the strings reachable from `__parse_size` (a digit
run, then a dot run, then a digit run): it succeeds exactly on
`<digits>`, `<digits>.`, `.<digits>` and `<digits>.<digits>`, and the
value is exact here because such literals are plain decimals (modelled in
`ℚ`). -/
def pyFloat (cs : List Char) : Except PyErr ℚ :=
  let i := cs.takeWhile isPyDigit
  match cs.dropWhile isPyDigit with
  | [] => if i.isEmpty then .error pyFloatErr else .ok (natOfDigitChars i)
  | '.' :: r2 =>
    let f := r2.takeWhile isPyDigit
    if (r2.dropWhile isPyDigit).isEmpty && !(i.isEmpty && f.isEmpty) then
      .ok ((natOfDigitChars i : ℚ) + (natOfDigitChars f : ℚ) / 10 ^ f.length)
    else .error pyFloatErr
  | _ => .error pyFloatErr

/-- The dict `exponent = {"B": 0, "KB": 10, "MB": 20, "GB": 30, "TB": 40}`
in insertion order. -/
def expTable : List (String × ℕ) :=
  [("B", 0), ("KB", 10), ("MB", 20), ("GB", 30), ("TB", 40)]

/-- Python dict subscript `d[k]`: the value at the key, or a `KeyError`. -/
def dictLookup (tbl : List (String × ℕ)) (k : String) : Except PyErr ℕ :=
  match tbl.find? (fun kv => kv.1 == k) with
  | some kv => .ok kv.2
  | none => .error (.keyError k)

/-- `Indexer.__parse_size` (indexer.py lines 83–101): uppercase the input,
validate it against `^\d+\.*\d*\s*[KMGT]*B$` (raising
`ValueError("Invalid argument string")` on failure), convert the numeric
prefix with `float`, look the unit up in the exponent dict, and return
`value * 2 ** exponent`. -/
def parseSize (s : String) : Except PyErr ℚ :=
  match regexFullMatch (s.toList.map Char.toUpper) with
  | none => .error (.valueError "Invalid argument string")
  | some validStr => do
    let v ← pyFloat (extractNum validStr)
    let e ← dictLookup expTable (String.mk (extractUnit validStr))
    pure (v * 2 ^ e)

/-- A file record: the dict built for each file in `Indexer.create_index`
(keys "Absolute Path", "File Name", "File Size", "Last Access",
"Creation", "File Extension", "File Type"). -/
structure FileRecord where
  absolutePath : String
  fileName : String
  fileSize : ℕ
  lastAccess : String
  creation : String
  fileExtension : String
  fileType : String
deriving DecidableEq

/-- Outcome of the seven `os.path` probes for one file visited by the walk:
`some v` when the primitive returns `v`, `none` when it raises. -/
structure ProbeInput where
  join : Option String
  abspath : Option String
  basename : Option String
  getsize : Option ℕ
  getatime : Option ℤ
  getctime : Option ℤ
  splitext : Option (String × String)
deriving DecidableEq

/-- A Python value that is either a string or a pair of strings: the
result of `Indexer.__get_file_info_str` applied to `os.path.splitext`,
which returns the sentinel string on error and the `(root, ext)` tuple
otherwise. -/
inductive StrOrPair where
  | str (v : String)
  | pair (v : String × String)
deriving DecidableEq

/-- `Indexer.__get_file_info_str` for string-returning primitives: the
value, or the sentinel `"Parsing Error"` when the primitive raises. -/
def getFileInfoStr (o : Option String) : String := o.getD "Parsing Error"

/-- `Indexer.__get_file_info_int` for `os.path.getsize`: the value, or the
sentinel `0` when the primitive raises. -/
def getFileInfoNat (o : Option ℕ) : ℕ := o.getD 0

/-- `Indexer.__get_file_info_int` for the timestamp primitives. -/
def getFileInfoInt (o : Option ℤ) : ℤ := o.getD 0

/-- `Indexer.__get_file_info_str` applied to `os.path.splitext`: the tuple
on success, the sentinel string `"Parsing Error"` on error. -/
def getFileInfoSplit (o : Option (String × String)) : StrOrPair :=
  match o with
  | some v => .pair v
  | none => .str "Parsing Error"

/-- Python subscript `x[i]` on a string: the one-character string at index
`i` (the out-of-range `IndexError` is unreachable at the use site). -/
def pyStrIndex (s : String) (i : ℕ) : String :=
  match s.toList.get? i with
  | some c => String.mk [c]
  | none => ""

/-- Python subscript `x[1]` on the value returned by
`__get_file_info_str(os.path.splitext, ...)`: the second tuple component
on success, and character 1 of the sentinel string on error. -/
def subscriptOne (x : StrOrPair) : String :=
  match x with
  | .pair v => v.2
  | .str v => pyStrIndex v 1

/-- `Indexer.__get_type` (indexer.py lines 73–81): scan the whole type
table in iteration order, remembering the last category whose extension
list contains the extension; default `"other"`. -/
def getType (types : List (String × List String)) (ext : String) : String :=
  types.foldl (fun acc kv => if ext ∈ kv.2 then kv.1 else acc) "other"

/-- Python `str.lower` on the ASCII fragment: lowercase every character. -/
def pyLower (s : String) : String := String.mk (s.toList.map Char.toLower)

/-- The `file_item` dict built in `Indexer.create_index` (lines 130–139)
from the probe outcomes of one file; `ct` models `time.ctime`. -/
def mkRecord (ct : ℤ → String) (types : List (String × List String))
    (p : ProbeInput) : FileRecord :=
  { absolutePath := getFileInfoStr p.abspath
    fileName := getFileInfoStr p.basename
    fileSize := getFileInfoNat p.getsize
    lastAccess := ct (getFileInfoInt p.getatime)
    creation := ct (getFileInfoInt p.getctime)
    fileExtension := pyLower (subscriptOne (getFileInfoSplit p.splitext))
    fileType := getType types (pyLower (subscriptOne (getFileInfoSplit p.splitext))) }

/-- The mutable attributes of an `Indexer` instance touched by
`create_index`: `files`, `__uniques`, `__duplicates`,
`__found_duplicate`. -/
structure IndexState where
  files : List FileRecord
  uniques : List FileRecord
  dups : List FileRecord
  foundDuplicate : Bool
deriving DecidableEq

/-- The state set up by `Indexer.__init__`. -/
def initState : IndexState :=
  { files := [], uniques := [], dups := [], foundDuplicate := false }

/-- `Indexer.__is_duplicate`: equality of the "File Name" and "File Size"
entries. -/
def isDup (f1 f2 : FileRecord) : Bool :=
  f1.fileName == f2.fileName && f1.fileSize == f2.fileSize

/-- The (name, size) pair a duplicate comparison looks at. -/
def recKey (r : FileRecord) : String × ℕ := (r.fileName, r.fileSize)

/-- `Indexer.__filter_by_min_size`: `file["File Size"] >= parse(size)`
(raising whatever `__parse_size` raises). -/
def filterByMinSize (v : String) (r : FileRecord) : Except PyErr Bool := do
  let q ← parseSize v
  pure (decide ((r.fileSize : ℚ) ≥ q))

/-- `Indexer.__filter_by_max_size`: `file["File Size"] <= parse(size)`. -/
def filterByMaxSize (v : String) (r : FileRecord) : Except PyErr Bool := do
  let q ← parseSize v
  pure (decide ((r.fileSize : ℚ) ≤ q))

/-- The `filter_methods` dict of `create_index`; an unknown kwarg name is a
`KeyError` at the subscript. -/
def filterMethods (n : String) : Option (String → FileRecord → Except PyErr Bool) :=
  if n = "min_size" then some filterByMinSize
  else if n = "max_size" then some filterByMaxSize
  else none

/-- The filter loop of `create_index` (lines 141–149): visit every kwarg in
dict order, OR-ing `filtered_out` with the negation of each filter's
verdict; a `KeyError` or `ValueError` aborts immediately. -/
def applyFilters (filters : List (String × String)) (r : FileRecord) :
    Except PyErr Bool :=
  filters.foldlM
    (fun fo nv =>
      match filterMethods nv.1 with
      | none => .error (.keyError nv.1)
      | some m => do
        let b ← m nv.2 r
        pure (fo || !b))
    false

/-- The duplicates-mode classification of one record (lines 152–167): scan
`__uniques` for a (name, size) match, moving the pair into `__duplicates`;
otherwise, when `__found_duplicate` is still unset, scan `__duplicates`;
otherwise, when it is still unset, append to `__uniques`.  The
`remove(unique)` call deletes the first list element equal to the matched
dict, which is that dict itself, modelled with `List.erase`. -/
def classify (st : IndexState) (r : FileRecord) : IndexState :=
  let stA :=
    match st.uniques.find? (fun u => isDup r u) with
    | some u =>
      { st with uniques := st.uniques.erase u
                dups := st.dups ++ [u, r]
                foundDuplicate := true }
    | none => st
  let stB :=
    if stA.foundDuplicate then stA
    else
      match stA.dups.find? (fun d => isDup r d) with
      | some _ => { stA with dups := stA.dups ++ [r], foundDuplicate := true }
      | none => stA
  if stB.foundDuplicate then stB
  else { stB with uniques := stB.uniques ++ [r] }

/-- The body of the inner loop of `create_index` for one probed record:
apply the filters, then either classify (duplicates mode) or append to
`files`, and finally the unconditional `if not filters: files.append`. -/
def processRecord (dup : Bool) (filters : List (String × String))
    (st : IndexState) (r : FileRecord) : Except PyErr IndexState := do
  let fo ← applyFilters filters r
  let st1 :=
    if fo then st
    else if dup then classify st r
    else { st with files := st.files ++ [r] }
  let st2 :=
    if filters.isEmpty then { st1 with files := st1.files ++ [r] } else st1
  pure st2

/-- The walk loop of `create_index` over the already-probed records. -/
def createIndexLoop (dup : Bool) (filters : List (String × String))
    (st : IndexState) (recs : List FileRecord) : Except PyErr IndexState :=
  recs.foldlM (processRecord dup filters) st

/-- `Indexer.create_index` (lines 120–175): run the loop, overwrite
`files` with a copy of `__duplicates` in duplicates mode, and return a
copy of `files` (the final state pairs with the returned list). -/
def createIndex (dup : Bool) (filters : List (String × String))
    (st : IndexState) (recs : List FileRecord) :
    Except PyErr (IndexState × List FileRecord) := do
  let st1 ← createIndexLoop dup filters st recs
  let st2 := if dup then { st1 with files := st1.dups } else st1
  pure (st2, st2.files)

/-- `create_index` from the raw walk: each visited file is probed into a
record and processed; probing is independent of the accumulated state, so
building all records first is equal to the interleaved Python loop. -/
def createIndexFromWalk (ct : ℤ → String) (types : List (String × List String))
    (dup : Bool) (filters : List (String × String)) (st : IndexState)
    (walk : List ProbeInput) : Except PyErr (IndexState × List FileRecord) :=
  createIndex dup filters st (walk.map (mkRecord ct types))

/-- The walk produced by `os.walk` on a root that cannot be opened: with
the default `onerror=None`, `os.walk` ignores the `os.scandir` error and
the generator yields nothing, so the loop body never runs. -/
def unavailableRootWalk : List ProbeInput := []

/-- The five size units of the grammar of `Indexer.__parse_size`. -/
inductive SizeUnit where
  | B | KB | MB | GB | TB
deriving DecidableEq

/-- Uppercase character sequence of a unit. -/
def unitChars : SizeUnit → List Char
  | .B => ['B']
  | .KB => ['K', 'B']
  | .MB => ['M', 'B']
  | .GB => ['G', 'B']
  | .TB => ['T', 'B']

/-- The `[KMGT]` letters of a unit (everything before the final `B`). -/
def unitPre : SizeUnit → List Char
  | .B => []
  | .KB => ['K']
  | .MB => ['M']
  | .GB => ['G']
  | .TB => ['T']

/-- The exponent the code's dict assigns to each unit. -/
def unitExp : SizeUnit → ℕ
  | .B => 0
  | .KB => 10
  | .MB => 20
  | .GB => 30
  | .TB => 40

/-- Value of a big-endian list of decimal digits. -/
def natOfDigits (l : List ℕ) : ℕ := l.foldl (fun a x => 10 * a + x) 0

/-- The internal invariant of the duplicates classification: `__uniques`
has pairwise-distinct (name, size) keys, no key occurs in both `__uniques`
and `__duplicates`, and every key present in `__duplicates` occurs there
at least twice. -/
def DupInv (st : IndexState) : Prop :=
  (st.uniques.map recKey).Nodup ∧
  (∀ p : String × ℕ, ¬(p ∈ st.uniques.map recKey ∧ p ∈ st.dups.map recKey)) ∧
  (∀ r ∈ st.dups, 2 ≤ st.dups.countP (fun x => recKey x == recKey r))

/-- A sample record, as probed from a file named "a" of size 1. -/
def recA : FileRecord :=
  { absolutePath := "/d/a", fileName := "a", fileSize := 1, lastAccess := "t1",
    creation := "t1", fileExtension := "", fileType := "other" }

/-- A second record with the same (name, size) as `recA` but a different
path: a duplicate of `recA`. -/
def recA2 : FileRecord :=
  { absolutePath := "/e/a", fileName := "a", fileSize := 1, lastAccess := "t2",
    creation := "t2", fileExtension := "", fileType := "other" }

/-- A record whose (name, size) differs from `recA`. -/
def recB : FileRecord :=
  { absolutePath := "/d/b", fileName := "b", fileSize := 2, lastAccess := "t3",
    creation := "t3", fileExtension := "", fileType := "other" }

lemma takeWhile_nil_of_head (p : Char → Bool) (l : List Char)
    (h : ∀ c, l.head? = some c → p c = false) : l.takeWhile p = [] := by
  cases l with
  | nil => rfl
  | cons a t => exact List.takeWhile_cons_of_neg (by simp [h a rfl])

lemma dropWhile_self_of_head (p : Char → Bool) (l : List Char)
    (h : ∀ c, l.head? = some c → p c = false) : l.dropWhile p = l := by
  cases l with
  | nil => rfl
  | cons a t => exact List.dropWhile_cons_of_neg (by simp [h a rfl])

lemma takeWhile_all (p : Char → Bool) (l : List Char) (h : ∀ c ∈ l, p c = true) :
    l.takeWhile p = l := by
  induction l with
  | nil => rfl
  | cons a t ih =>
    rw [List.takeWhile_cons_of_pos (h a (by simp)), ih (fun c hc => h c (by simp [hc]))]

lemma dropWhile_all (p : Char → Bool) (l : List Char) (h : ∀ c ∈ l, p c = true) :
    l.dropWhile p = [] := by
  induction l with
  | nil => rfl
  | cons a t ih =>
    rw [List.dropWhile_cons_of_pos (h a (by simp)), ih (fun c hc => h c (by simp [hc]))]

lemma takeWhile_nil_of_all (p : Char → Bool) (l : List Char)
    (h : ∀ c ∈ l, p c = false) : l.takeWhile p = [] := by
  cases l with
  | nil => rfl
  | cons a t => exact List.takeWhile_cons_of_neg (by simp [h a (by simp)])

lemma digitChar_props (x : ℕ) (h : x < 10) :
    isPyDigit (Nat.digitChar x) = true ∧ ((Nat.digitChar x) == '.') = false ∧
    isPySpace (Nat.digitChar x) = false ∧ isUnitChar (Nat.digitChar x) = false ∧
    charDigitVal (Nat.digitChar x) = x := by
  interval_cases x <;> decide

lemma natOfDigitChars_map_aux (l : List ℕ) (h : ∀ x ∈ l, x < 10) (a : ℕ) :
    (l.map Nat.digitChar).foldl (fun a c => 10 * a + charDigitVal c) a =
      l.foldl (fun a x => 10 * a + x) a := by
  induction l generalizing a with
  | nil => rfl
  | cons x t ih =>
    simp only [List.map_cons, List.foldl_cons]
    rw [(digitChar_props x (h x (by simp))).2.2.2.2]
    exact ih (fun y hy => h y (by simp [hy])) _

lemma natOfDigitChars_map (l : List ℕ) (h : ∀ x ∈ l, x < 10) :
    natOfDigitChars (l.map Nat.digitChar) = natOfDigits l :=
  natOfDigitChars_map_aux l h 0

lemma unitChars_decomp (u : SizeUnit) : unitChars u = unitPre u ++ ['B'] := by
  cases u <;> rfl

lemma unitPre_facts (u : SizeUnit) :
    ∀ c ∈ unitPre u, isUnitChar c = true ∧ isPyDigit c = false ∧ (c == '.') = false ∧
      isPySpace c = false := by
  cases u <;> decide

lemma unitChars_head (u : SizeUnit) :
    ∀ c, (unitChars u).head? = some c → isPyDigit c = false ∧ (c == '.') = false ∧
      isPySpace c = false := by
  cases u <;> (intro c hc; simp [unitChars] at hc; subst hc; decide)

lemma getType_foldl_aux (ext : String) (types : List (String × List String)) (acc : String) :
    types.foldl (fun a kv => if ext ∈ kv.2 then kv.1 else a) acc =
      ((types.filter (fun kv => decide (ext ∈ kv.2))).getLast?.map Prod.fst).getD acc := by
  induction types generalizing acc with
  | nil => rfl
  | cons kv t ih =>
    simp only [List.foldl_cons, List.filter_cons]
    by_cases hm : ext ∈ kv.2
    · rw [if_pos hm, ih, if_pos (by simpa using hm), List.getLast?_cons]
      cases hft : (t.filter fun kv => decide (ext ∈ kv.2)).getLast? with
      | none => simp [hft]
      | some b => simp [hft]
    · rw [if_neg hm, ih, if_neg (by simpa using hm)]

lemma processRecord_false_frame (f : List (String × String)) (st st' : IndexState)
    (r : FileRecord) (h : processRecord false f st r = .ok st') :
    (∃ t, st'.files = st.files ++ t) ∧ st'.uniques = st.uniques ∧ st'.dups = st.dups := by
  cases happ : applyFilters f r with
  | error e => simp [processRecord, happ, bind, Except.bind] at h
  | ok fo =>
    simp only [processRecord, happ, bind, Except.bind, pure, Except.pure, Except.ok.injEq,
      Bool.false_eq_true, if_false] at h
    subst h
    cases fo <;> by_cases hf : f.isEmpty <;> simp [hf, List.append_assoc]

lemma createIndexLoop_false_frame (recs : List FileRecord) (f : List (String × String))
    (st st' : IndexState) (h : createIndexLoop false f st recs = .ok st') :
    (∃ t, st'.files = st.files ++ t) ∧ st'.uniques = st.uniques ∧ st'.dups = st.dups := by
  induction recs generalizing st with
  | nil =>
    simp only [createIndexLoop, List.foldlM, pure, Except.pure, Except.ok.injEq] at h
    subst h
    exact ⟨⟨[], by simp⟩, rfl, rfl⟩
  | cons r t ih =>
    simp only [createIndexLoop, List.foldlM] at h
    cases hpr : processRecord false f st r with
    | error e => simp [hpr, bind, Except.bind] at h
    | ok stm =>
      simp only [hpr, bind, Except.bind] at h
      obtain ⟨⟨t2, ht2⟩, hu2, hd2⟩ := ih stm h
      obtain ⟨⟨t1, ht1⟩, hu1, hd1⟩ := processRecord_false_frame f st stm r hpr
      exact ⟨⟨t1 ++ t2, by rw [ht2, ht1, List.append_assoc]⟩, by rw [hu2, hu1],
        by rw [hd2, hd1]⟩

lemma processRecord_false_nofilters (st : IndexState) (r : FileRecord) :
    processRecord false [] st r = .ok { st with files := st.files ++ [r, r] } := by
  simp [processRecord, applyFilters, List.foldlM, bind, Except.bind, pure, Except.pure,
    List.append_assoc]

lemma createIndexLoop_false_nofilters (recs : List FileRecord) (st : IndexState) :
    createIndexLoop false [] st recs =
      .ok { st with files := st.files ++ recs.flatMap (fun r => [r, r]) } := by
  induction recs generalizing st with
  | nil => simp [createIndexLoop, List.foldlM, pure, Except.pure]
  | cons r t ih =>
    simp only [createIndexLoop, List.foldlM, processRecord_false_nofilters, bind, Except.bind]
    rw [show (List.foldlM (processRecord false []) { st with files := st.files ++ [r, r] } t :
        Except PyErr IndexState) = createIndexLoop false [] { st with files := st.files ++ [r, r] } t
      from rfl, ih]
    simp [List.append_assoc]

lemma createIndex_ok_elim (dup : Bool) (f : List (String × String)) (st : IndexState)
    (recs : List FileRecord) (st' : IndexState) (out : List FileRecord)
    (h : createIndex dup f st recs = .ok (st', out)) :
    ∃ st1, createIndexLoop dup f st recs = .ok st1 ∧
      st' = (if dup then { st1 with files := st1.dups } else st1) ∧ out = st'.files := by
  cases hl : createIndexLoop dup f st recs with
  | error e => simp [createIndex, hl, bind, Except.bind] at h
  | ok st1 =>
    simp only [createIndex, hl, bind, Except.bind, pure, Except.pure, Except.ok.injEq,
      Prod.mk.injEq] at h
    obtain ⟨h1, h2⟩ := h
    refine ⟨st1, rfl, h1.symm, ?_⟩
    rw [← h1, ← h2]

lemma isDup_iff_recKey (f1 f2 : FileRecord) : isDup f1 f2 = true ↔ recKey f1 = recKey f2 := by
  simp [isDup, recKey, Prod.ext_iff]

lemma dupInv_init : DupInv initState := by
  refine ⟨by simp [initState], by simp [initState], by simp [initState]⟩

lemma classify_eq_moveToDups (st : IndexState) (r u : FileRecord)
    (hfu : st.uniques.find? (fun u => isDup r u) = some u) :
    classify st r = { st with uniques := st.uniques.erase u,
                              dups := st.dups ++ [u, r], foundDuplicate := true } := by
  unfold classify
  rw [hfu]
  simp

lemma classify_eq_alreadyFound (st : IndexState) (r : FileRecord)
    (hfu : st.uniques.find? (fun u => isDup r u) = none)
    (hff : st.foundDuplicate = true) :
    classify st r = st := by
  unfold classify
  rw [hfu]
  simp [hff]

lemma classify_eq_appendDup (st : IndexState) (r d : FileRecord)
    (hfu : st.uniques.find? (fun u => isDup r u) = none)
    (hff : st.foundDuplicate = false)
    (hfd : st.dups.find? (fun d => isDup r d) = some d) :
    classify st r = { st with dups := st.dups ++ [r], foundDuplicate := true } := by
  unfold classify
  rw [hfu]
  simp [hff, hfd]

lemma classify_eq_newUnique (st : IndexState) (r : FileRecord)
    (hfu : st.uniques.find? (fun u => isDup r u) = none)
    (hff : st.foundDuplicate = false)
    (hfd : st.dups.find? (fun d => isDup r d) = none) :
    classify st r = { st with uniques := st.uniques ++ [r] } := by
  unfold classify
  rw [hfu]
  simp [hff, hfd]

/-- Claim C4: for every size string made of a non-negative number
(optionally fractional), optional whitespace and a unit in
{B, KB, MB, GB, TB} (case-insensitive — the hypothesis constrains only the
uppercased character sequence), `__parse_size` returns the number times
1024 per unit step (`KB = 2^10`, …, `TB = 2^40`). -/
theorem parseSize_wellFormed (d1 d2 : List ℕ) (frac : Bool) (nsp : ℕ) (u : SizeUnit) (s : String)
    (hd1 : d1 ≠ []) (h1 : ∀ x ∈ d1, x < 10) (h2 : ∀ x ∈ d2, x < 10)
    (hfr : if frac = true then d2 ≠ [] else d2 = [])
    (hs : s.toList.map Char.toUpper =
      d1.map Nat.digitChar ++ (if frac = true then '.' :: d2.map Nat.digitChar else []) ++
        List.replicate nsp ' ' ++ unitChars u) :
    parseSize s =
      .ok ((natOfDigits d1 + (natOfDigits d2 : ℚ) / 10 ^ d2.length) * 2 ^ unitExp u) := by
  have fD1 : ∀ c ∈ d1.map Nat.digitChar, isPyDigit c = true ∧ (c == '.') = false ∧
      isPySpace c = false ∧ isUnitChar c = false := by
    intro c hc
    obtain ⟨x, hx, rfl⟩ := List.mem_map.1 hc
    have hp := digitChar_props x (h1 x hx)
    exact ⟨hp.1, hp.2.1, hp.2.2.1, hp.2.2.2.1⟩
  have fD2 : ∀ c ∈ d2.map Nat.digitChar, isPyDigit c = true ∧ (c == '.') = false ∧
      isPySpace c = false ∧ isUnitChar c = false := by
    intro c hc
    obtain ⟨x, hx, rfl⟩ := List.mem_map.1 hc
    have hp := digitChar_props x (h2 x hx)
    exact ⟨hp.1, hp.2.1, hp.2.2.1, hp.2.2.2.1⟩
  have fS : ∀ c ∈ List.replicate nsp ' ', isPySpace c = true ∧ isPyDigit c = false ∧
      (c == '.') = false ∧ isUnitChar c = false := by
    intro c hc
    rw [List.eq_of_mem_replicate hc]
    decide
  have hD1ne : d1.map Nat.digitChar ≠ [] := by simpa using hd1
  have hheadSU : ∀ c, (List.replicate nsp ' ' ++ unitChars u).head? = some c →
      isPyDigit c = false ∧ (c == '.') = false := by
    cases nsp with
    | zero =>
      intro c hc
      simp only [List.replicate, List.nil_append] at hc
      exact ⟨(unitChars_head u c hc).1, (unitChars_head u c hc).2.1⟩
    | succ n =>
      intro c hc
      simp only [List.replicate_succ, List.cons_append, List.head?_cons,
        Option.some.injEq] at hc
      subst hc
      decide
  cases frac with
  | false =>
    simp only [if_neg (by simp : ¬(false = true))] at hfr hs
    subst hfr
    rw [List.append_nil] at hs
    rw [List.append_assoc] at hs
    -- hs : up = D1 ++ (S ++ U)
    have twD : (s.toList.map Char.toUpper).takeWhile isPyDigit = d1.map Nat.digitChar := by
      rw [hs, List.takeWhile_append_of_pos (fun c hc => (fD1 c hc).1),
        takeWhile_nil_of_head _ _ (fun c hc => (hheadSU c hc).1), List.append_nil]
    have dwD : (s.toList.map Char.toUpper).dropWhile isPyDigit =
        List.replicate nsp ' ' ++ unitChars u := by
      rw [hs, List.dropWhile_append_of_pos (fun c hc => (fD1 c hc).1),
        dropWhile_self_of_head _ _ (fun c hc => (hheadSU c hc).1)]
    have dwDot : (List.replicate nsp ' ' ++ unitChars u).dropWhile (fun c => c == '.') =
        List.replicate nsp ' ' ++ unitChars u :=
      dropWhile_self_of_head _ _ (fun c hc => (hheadSU c hc).2)
    have twDot : (List.replicate nsp ' ' ++ unitChars u).takeWhile (fun c => c == '.') = [] :=
      takeWhile_nil_of_head _ _ (fun c hc => (hheadSU c hc).2)
    have dwD2 : (List.replicate nsp ' ' ++ unitChars u).dropWhile isPyDigit =
        List.replicate nsp ' ' ++ unitChars u :=
      dropWhile_self_of_head _ _ (fun c hc => (hheadSU c hc).1)
    have twD2 : (List.replicate nsp ' ' ++ unitChars u).takeWhile isPyDigit = [] :=
      takeWhile_nil_of_head _ _ (fun c hc => (hheadSU c hc).1)
    have dwSp : (List.replicate nsp ' ' ++ unitChars u).dropWhile isPySpace = unitChars u := by
      rw [List.dropWhile_append_of_pos (fun c hc => (fS c hc).1),
        dropWhile_self_of_head _ _ (fun c hc => (unitChars_head u c hc).2.2)]
    have dwU : (unitChars u).dropWhile isUnitChar = ['B'] := by
      rw [unitChars_decomp u, List.dropWhile_append_of_pos (fun c hc => (unitPre_facts u c hc).1)]
      decide
    have hmatch : matchSizeCore (s.toList.map Char.toUpper) = true := by
      simp only [matchSizeCore, dwD, dwDot, dwD2, dwSp, dwU, twD]
      simp [hD1ne]
    have hregex : regexFullMatch (s.toList.map Char.toUpper) =
        some (s.toList.map Char.toUpper) := by
      simp only [regexFullMatch, hmatch, if_true]
    have hnum : extractNum (s.toList.map Char.toUpper) = d1.map Nat.digitChar := by
      simp only [extractNum, twD, dwD, twDot, dwDot, twD2, List.append_nil]
    have hpf : pyFloat (d1.map Nat.digitChar) = .ok ((natOfDigits d1 : ℚ)) := by
      simp only [pyFloat, takeWhile_all _ _ (fun c hc => (fD1 c hc).1),
        dropWhile_all _ _ (fun c hc => (fD1 c hc).1)]
      rw [if_neg (by simp [hD1ne])]
      rw [natOfDigitChars_map d1 h1]
    have hrev : (s.toList.map Char.toUpper).reverse =
        'B' :: ((unitPre u).reverse ++ ((List.replicate nsp ' ').reverse ++
          (d1.map Nat.digitChar).reverse)) := by
      rw [hs, unitChars_decomp u]
      simp [List.reverse_append, List.append_assoc]
    have hunit : extractUnit (s.toList.map Char.toUpper) = unitChars u := by
      rw [extractUnit, hrev]
      simp only [beq_self_eq_true, if_true]
      rw [List.takeWhile_append_of_pos (by
        intro c hc
        exact (unitPre_facts u c (List.mem_reverse.1 hc)).1)]
      rw [takeWhile_nil_of_all _ _ (by
        intro c hc
        rcases List.mem_append.1 hc with hc1 | hc1
        · exact (fS c (List.mem_reverse.1 hc1)).2.2.2
        · exact (fD1 c (List.mem_reverse.1 hc1)).2.2.2)]
      rw [List.append_nil, List.reverse_reverse, unitChars_decomp u]
    have hlook : dictLookup expTable (String.mk (unitChars u)) = .ok (unitExp u) := by
      cases u <;> rfl
    simp only [parseSize, hregex, hnum, hunit, hpf, hlook]
    simp only [Except.bind, bind, Except.map, Functor.map]
    norm_num [natOfDigits, pure, Except.pure]
  | true =>
    simp only [if_pos rfl, if_true] at hfr hs
    obtain ⟨x0, d2t, rfl⟩ : ∃ x0 d2t, d2 = x0 :: d2t := by
      cases d2 with
      | nil => exact absurd rfl hfr
      | cons a t => exact ⟨a, t, rfl⟩
    rw [List.append_assoc, List.append_assoc, List.cons_append] at hs
    -- hs : up = D1 ++ ('.' :: (D2 ++ (S ++ U)))
    have hheadD2 : ∀ c, ((x0 :: d2t).map Nat.digitChar ++
        (List.replicate nsp ' ' ++ unitChars u)).head? = some c →
        isPyDigit c = true ∧ (c == '.') = false := by
      intro c hc
      simp only [List.map_cons, List.cons_append, List.head?_cons, Option.some.injEq] at hc
      subst hc
      have hp := digitChar_props x0 (h2 x0 (by simp))
      exact ⟨hp.1, hp.2.1⟩
    have twD : (s.toList.map Char.toUpper).takeWhile isPyDigit = List.map Nat.digitChar d1 := by
      rw [hs, List.takeWhile_append_of_pos (fun c hc => (fD1 c hc).1),
        List.takeWhile_cons_of_neg (by decide), List.append_nil]
    have dwD : (s.toList.map Char.toUpper).dropWhile isPyDigit =
        '.' :: ((x0 :: d2t).map Nat.digitChar ++ (List.replicate nsp ' ' ++ unitChars u)) := by
      rw [hs, List.dropWhile_append_of_pos (fun c hc => (fD1 c hc).1),
        List.dropWhile_cons_of_neg (by decide)]
    have dwDot : ('.' :: ((x0 :: d2t).map Nat.digitChar ++
        (List.replicate nsp ' ' ++ unitChars u))).dropWhile (fun c => c == '.') =
        (x0 :: d2t).map Nat.digitChar ++ (List.replicate nsp ' ' ++ unitChars u) := by
      rw [List.dropWhile_cons_of_pos (by decide),
        dropWhile_self_of_head _ _ (fun c hc => (hheadD2 c hc).2)]
    have twDot : ('.' :: ((x0 :: d2t).map Nat.digitChar ++
        (List.replicate nsp ' ' ++ unitChars u))).takeWhile (fun c => c == '.') = ['.'] := by
      rw [List.takeWhile_cons_of_pos (by decide),
        takeWhile_nil_of_head _ _ (fun c hc => (hheadD2 c hc).2)]
    have dwD2 : ((x0 :: d2t).map Nat.digitChar ++
        (List.replicate nsp ' ' ++ unitChars u)).dropWhile isPyDigit =
        List.replicate nsp ' ' ++ unitChars u := by
      rw [List.dropWhile_append_of_pos (fun c hc => (fD2 c hc).1),
        dropWhile_self_of_head _ _ (fun c hc => (hheadSU c hc).1)]
    have twD2 : ((x0 :: d2t).map Nat.digitChar ++
        (List.replicate nsp ' ' ++ unitChars u)).takeWhile isPyDigit =
        (x0 :: d2t).map Nat.digitChar := by
      rw [List.takeWhile_append_of_pos (fun c hc => (fD2 c hc).1),
        takeWhile_nil_of_head _ _ (fun c hc => (hheadSU c hc).1), List.append_nil]
    have dwSp : (List.replicate nsp ' ' ++ unitChars u).dropWhile isPySpace = unitChars u := by
      rw [List.dropWhile_append_of_pos (fun c hc => (fS c hc).1),
        dropWhile_self_of_head _ _ (fun c hc => (unitChars_head u c hc).2.2)]
    have dwU : (unitChars u).dropWhile isUnitChar = ['B'] := by
      rw [unitChars_decomp u, List.dropWhile_append_of_pos (fun c hc => (unitPre_facts u c hc).1)]
      decide
    have hmatch : matchSizeCore (s.toList.map Char.toUpper) = true := by
      simp only [matchSizeCore, dwD, dwDot, dwD2, dwSp, dwU, twD]
      simp [hD1ne]
    have hregex : regexFullMatch (s.toList.map Char.toUpper) =
        some (s.toList.map Char.toUpper) := by
      simp only [regexFullMatch, hmatch, if_true]
    have hnum : extractNum (s.toList.map Char.toUpper) =
        List.map Nat.digitChar d1 ++ ('.' :: (x0 :: d2t).map Nat.digitChar) := by
      simp only [extractNum, twD, dwD, twDot, dwDot, twD2]
      simp
    have hpf : pyFloat (List.map Nat.digitChar d1 ++ ('.' :: (x0 :: d2t).map Nat.digitChar)) =
        .ok ((natOfDigits d1 : ℚ) +
          (natOfDigits (x0 :: d2t) : ℚ) / 10 ^ (x0 :: d2t).length) := by
      have hiD : (List.map Nat.digitChar d1 ++
          ('.' :: (x0 :: d2t).map Nat.digitChar)).takeWhile isPyDigit =
          List.map Nat.digitChar d1 := by
        rw [List.takeWhile_append_of_pos (fun c hc => (fD1 c hc).1),
          List.takeWhile_cons_of_neg (by decide), List.append_nil]
      have hdD : (List.map Nat.digitChar d1 ++
          ('.' :: (x0 :: d2t).map Nat.digitChar)).dropWhile isPyDigit =
          '.' :: (x0 :: d2t).map Nat.digitChar := by
        rw [List.dropWhile_append_of_pos (fun c hc => (fD1 c hc).1),
          List.dropWhile_cons_of_neg (by decide)]
      simp only [pyFloat, hiD, hdD,
        takeWhile_all _ _ (fun c hc => (fD2 c hc).1),
        dropWhile_all _ _ (fun c hc => (fD2 c hc).1)]
      rw [if_pos (by simp [hD1ne])]
      rw [natOfDigitChars_map d1 h1, natOfDigitChars_map _ h2, List.length_map]
    have hrev : (s.toList.map Char.toUpper).reverse =
        'B' :: ((unitPre u).reverse ++ ((List.replicate nsp ' ').reverse ++
          (((x0 :: d2t).map Nat.digitChar).reverse ++ ('.' :: (List.map Nat.digitChar d1).reverse)))) := by
      rw [hs, unitChars_decomp u]
      simp [List.reverse_append, List.append_assoc]
    have hunit : extractUnit (s.toList.map Char.toUpper) = unitChars u := by
      rw [extractUnit, hrev]
      simp only [beq_self_eq_true, if_true]
      rw [List.takeWhile_append_of_pos (by
        intro c hc
        exact (unitPre_facts u c (List.mem_reverse.1 hc)).1)]
      rw [takeWhile_nil_of_all _ _ (by
        intro c hc
        rcases List.mem_append.1 hc with hc1 | hc1
        · exact (fS c (List.mem_reverse.1 hc1)).2.2.2
        · rcases List.mem_append.1 hc1 with hc2 | hc2
          · exact (fD2 c (List.mem_reverse.1 hc2)).2.2.2
          · rcases List.mem_cons.1 hc2 with hc3 | hc3
            · subst hc3; decide
            · exact (fD1 c (List.mem_reverse.1 hc3)).2.2.2)]
      rw [List.append_nil, List.reverse_reverse, unitChars_decomp u]
    have hlook : dictLookup expTable (String.mk (unitChars u)) = .ok (unitExp u) := by
      cases u <;> rfl
    simp only [parseSize, hregex, hnum, hunit, hpf, hlook]
    simp only [Except.bind, bind, Except.map, Functor.map]
    rfl

lemma classify_inv (st : IndexState) (r : FileRecord) (h : DupInv st) :
    DupInv (classify st r) := by
  obtain ⟨hnd, hdisj, hcnt⟩ := h
  cases hfu : st.uniques.find? (fun u => isDup r u) with
  | some u =>
    rw [classify_eq_moveToDups st r u hfu]
    have hu_mem : u ∈ st.uniques := List.mem_of_find?_eq_some hfu
    have hu_key : recKey u = recKey r := ((isDup_iff_recKey r u).1 (List.find?_some hfu)).symm
    have hnd_u : st.uniques.Nodup := List.Nodup.of_map _ hnd
    have hkey_not : recKey r ∉ (st.uniques.erase u).map recKey := by
      intro hmem
      obtain ⟨v, hv_mem, hv_key⟩ := List.mem_map.1 hmem
      have hv_ne : v ≠ u ∧ v ∈ st.uniques := (List.Nodup.mem_erase_iff hnd_u).1 hv_mem
      exact hv_ne.1 (List.inj_on_of_nodup_map hnd hv_ne.2 hu_mem (by rw [hv_key, hu_key]))
    refine ⟨?_, ?_, ?_⟩
    · exact List.Nodup.sublist (List.Sublist.map recKey (List.erase_sublist u st.uniques)) hnd
    · intro p hp
      obtain ⟨hp1, hp2⟩ := hp
      rw [List.map_append] at hp2
      rcases List.mem_append.1 hp2 with hp2 | hp2
      · have hpu : p ∈ st.uniques.map recKey := by
          obtain ⟨v, hv, hvk⟩ := List.mem_map.1 hp1
          exact List.mem_map.2 ⟨v, ((List.Nodup.mem_erase_iff hnd_u).1 hv).2, hvk⟩
        exact hdisj p ⟨hpu, hp2⟩
      · simp only [List.map_cons, List.map_nil, List.mem_cons, List.not_mem_nil,
          or_false] at hp2
        rcases hp2 with hp2 | hp2
        · rw [hp2, hu_key] at hp1
          exact hkey_not hp1
        · rw [hp2] at hp1
          exact hkey_not hp1
    · intro d hd
      rw [List.countP_append]
      rcases List.mem_append.1 hd with hd | hd
      · exact le_trans (hcnt d hd) (Nat.le_add_right _ _)
      · have hdk : recKey d = recKey r := by
          simp only [List.mem_cons, List.not_mem_nil, or_false] at hd
          rcases hd with rfl | rfl
          · exact hu_key
          · rfl
        have h2 : ([u, r].countP fun x => recKey x == recKey d) = 2 := by
          simp [List.countP_cons, hu_key, hdk]
        rw [h2]
        exact Nat.le_add_left 2 _
  | none =>
    have hnomatch : ∀ v ∈ st.uniques, recKey v ≠ recKey r := by
      intro v hv hk
      exact (List.find?_eq_none.1 hfu v hv) ((isDup_iff_recKey r v).2 hk.symm)
    cases hff : st.foundDuplicate with
    | true =>
      rw [classify_eq_alreadyFound st r hfu hff]
      exact ⟨hnd, hdisj, hcnt⟩
    | false =>
      cases hfd : st.dups.find? (fun d => isDup r d) with
      | some d =>
        rw [classify_eq_appendDup st r d hfu hff hfd]
        have hd_mem : d ∈ st.dups := List.mem_of_find?_eq_some hfd
        have hd_key : recKey d = recKey r := ((isDup_iff_recKey r d).1 (List.find?_some hfd)).symm
        refine ⟨hnd, ?_, ?_⟩
        · intro p hp
          obtain ⟨hp1, hp2⟩ := hp
          rw [List.map_append] at hp2
          rcases List.mem_append.1 hp2 with hp2 | hp2
          · exact hdisj p ⟨hp1, hp2⟩
          · simp only [List.map_cons, List.map_nil, List.mem_cons, List.not_mem_nil,
              or_false] at hp2
            obtain ⟨v, hv, hvk⟩ := List.mem_map.1 hp1
            exact hnomatch v hv (by rw [hvk, hp2])
        · intro x hx
          rw [List.countP_append]
          rcases List.mem_append.1 hx with hx | hx
          · exact le_trans (hcnt x hx) (Nat.le_add_right _ _)
          · have hxk : recKey x = recKey r := by
              simp only [List.mem_cons, List.not_mem_nil, or_false] at hx
              rw [hx]
            have hone : 1 ≤ st.dups.countP (fun y => recKey y == recKey x) := by
              have : 0 < st.dups.countP (fun y => recKey y == recKey x) :=
                List.countP_pos_iff.2 ⟨d, hd_mem, by simp [hd_key, hxk]⟩
              omega
            have htwo : ([r].countP fun y => recKey y == recKey x) = 1 := by
              simp [List.countP_cons, hxk]
            omega
      | none =>
        rw [classify_eq_newUnique st r hfu hff hfd]
        have hnomatchd : ∀ v ∈ st.dups, recKey v ≠ recKey r := by
          intro v hv hk
          exact (List.find?_eq_none.1 hfd v hv) ((isDup_iff_recKey r v).2 hk.symm)
        refine ⟨?_, ?_, hcnt⟩
        · rw [List.map_append]
          refine List.Nodup.append hnd (by simp) ?_
          intro p hp1 hp2
          simp only [List.map_cons, List.map_nil, List.mem_cons, List.not_mem_nil,
            or_false] at hp2
          obtain ⟨v, hv, hvk⟩ := List.mem_map.1 hp1
          exact hnomatch v hv (by rw [hvk, hp2])
        · intro p hp
          obtain ⟨hp1, hp2⟩ := hp
          rw [List.map_append] at hp1
          rcases List.mem_append.1 hp1 with hp1 | hp1
          · exact hdisj p ⟨hp1, hp2⟩
          · simp only [List.map_cons, List.map_nil, List.mem_cons, List.not_mem_nil,
              or_false] at hp1
            obtain ⟨v, hv, hvk⟩ := List.mem_map.1 hp2
            have : recKey v = recKey r := by rw [hvk, hp1]
            exact hnomatchd v hv this

lemma processRecord_true_inv (f : List (String × String)) (st st' : IndexState)
    (r : FileRecord) (hinv : DupInv st) (h : processRecord true f st r = .ok st') :
    DupInv st' := by
  cases happ : applyFilters f r with
  | error e => simp [processRecord, happ, bind, Except.bind] at h
  | ok fo =>
    simp only [processRecord, happ, bind, Except.bind, pure, Except.pure,
      Except.ok.injEq] at h
    subst h
    have hbase : DupInv (if fo = true then st else if true = true then classify st r
        else { st with files := st.files ++ [r] }) := by
      cases fo
      · simpa using classify_inv st r hinv
      · simpa using hinv
    by_cases hf : f.isEmpty <;> simp only [hf, if_true, if_false, Bool.false_eq_true] <;>
      exact hbase

lemma createIndexLoop_true_inv (recs : List FileRecord) (f : List (String × String))
    (st st' : IndexState) (hinv : DupInv st)
    (h : createIndexLoop true f st recs = .ok st') : DupInv st' := by
  induction recs generalizing st with
  | nil =>
    simp only [createIndexLoop, List.foldlM, pure, Except.pure, Except.ok.injEq] at h
    subst h
    exact hinv
  | cons r t ih =>
    simp only [createIndexLoop, List.foldlM] at h
    cases hpr : processRecord true f st r with
    | error e => simp [hpr, bind, Except.bind] at h
    | ok stm =>
      simp only [hpr, bind, Except.bind] at h
      exact ih stm (processRecord_true_inv f st stm r hinv hpr) h

/-- Witness for claim C4 at the three example strings of the claim:
`parse("1 KB") = 1024`, `parse("1MB") = 1048576`,
`parse("0.5 GB") = 536870912`. -/
theorem parseSize_wellFormed_witness :
    parseSize "1 KB" = .ok 1024 ∧ parseSize "1MB" = .ok 1048576 ∧
      parseSize "0.5 GB" = .ok 536870912 := by
  refine ⟨?_, ?_, ?_⟩
  · have h := parseSize_wellFormed [1] [] false 1 SizeUnit.KB "1 KB"
      (by decide) (by decide) (by decide) (by decide) (by decide)
    rw [h]
    norm_num [natOfDigits, unitExp]
  · have h := parseSize_wellFormed [1] [] false 0 SizeUnit.MB "1MB"
      (by decide) (by decide) (by decide) (by decide) (by decide)
    rw [h]
    norm_num [natOfDigits, unitExp]
  · have h := parseSize_wellFormed [0] [5] true 1 SizeUnit.GB "0.5 GB"
      (by decide) (by decide) (by decide) (by decide) (by decide)
    rw [h]
    norm_num [natOfDigits, unitExp]

/-- Claim C5 evaluated against the code: the claim says every string not
matching `<digits>[.<digits>][<spaces>][K|M|G|T]B` fails with
`InvalidSizeFormat` (the explicit `ValueError`), but the code's regex is
`^\d+\.*\d*\s*[KMGT]*B$`, so `"5.KB"` (no digit after the dot) parses
successfully to 5120 and `"5KKB"` (two unit letters) escapes the
validation and dies with a `KeyError` from the exponent dict instead of
the documented `ValueError`.  The claim's own three examples do raise the
`ValueError`. -/
theorem parseSize_slip_eval :
    parseSize "5.KB" = .ok 5120 ∧
      parseSize "5KKB" = .error (.keyError "KKB") ∧
      parseSize "abc" = .error (.valueError "Invalid argument string") ∧
      parseSize "-5KB" = .error (.valueError "Invalid argument string") ∧
      parseSize "5 XB" = .error (.valueError "Invalid argument string") := by
  refine ⟨?_, rfl, rfl, rfl, rfl⟩
  rw [show (5120 : ℚ) = ((5 : ℚ) + 0 / 10 ^ 0) * 2 ^ 10 by norm_num]
  rfl

/-- Claim C7: `__get_type` is total and equals the last category of the
table (in iteration order) whose extension list contains the extension,
defaulting to `"other"` when no category matches — stated as a single
equation: the result is the first component of the last member of the
filtered table, with default `"other"` when the filter is empty. -/
theorem getType_total_lastMatch (types : List (String × List String)) (ext : String) :
    getType types ext =
      ((types.filter (fun kv => decide (ext ∈ kv.2))).getLast?.map Prod.fst).getD "other" :=
  getType_foldl_aux ext types "other"

/-- Claim C1 evaluated against the code: processing records A, A', B in
duplicates mode, where A and A' share (name, size) and B is distinct.
After the pair (A, A') moves to `__duplicates`, `__found_duplicate` stays
`True` (it is never reset per record; `__set_found_duplicate` is an empty
stub), so for B steps 2–3 of the classification are skipped: B is neither
appended to `__uniques` (as step 3 requires) nor to `__duplicates` — it is
dropped.  The final state has `uniques = []` and B nowhere. -/
theorem createIndex_dropsRecordAfterFirstDuplicate :
    createIndex true [] initState [recA, recA2, recB] =
      .ok ({ files := [recA, recA2], uniques := [], dups := [recA, recA2],
             foundDuplicate := true }, [recA, recA2]) := rfl

/-- Claim C2 evaluated against the code: in non-duplicates mode with no
filters, each probed record is appended to `files` twice — once by the
`if not filtered_out` branch and once more by the unconditional
`if not filters` append — so a single probed file yields a result list of
length 2, not 1. -/
theorem createIndex_doubleAppendsWithoutFilters :
    createIndex false [] initState [recA] =
      .ok ({ files := [recA, recA], uniques := [], dups := [],
             foundDuplicate := false }, [recA, recA]) := rfl

/-- Claim C3: in duplicates mode, starting from the freshly constructed
state, (1) after processing any record list (hence at every intermediate
point of any scan, since the state after a prefix is the state of running
the prefix alone) no (name, size) pair occurs in both `__uniques` and
`__duplicates`; (2) every record of the returned result list has at least
two records with its (name, size) key in the result, and its key is absent
from the final `__uniques` (the unique-only complement). -/
theorem createIndex_duplicates_partition (filters : List (String × String)) :
    (∀ (recs : List FileRecord) (st : IndexState),
        createIndexLoop true filters initState recs = .ok st →
        ∀ p : String × ℕ, ¬(p ∈ st.uniques.map recKey ∧ p ∈ st.dups.map recKey)) ∧
    (∀ (recs : List FileRecord) (stF : IndexState) (out : List FileRecord),
        createIndex true filters initState recs = .ok (stF, out) →
        (∀ r ∈ out, 2 ≤ out.countP (fun x => recKey x == recKey r)) ∧
        ∀ r ∈ out, recKey r ∉ stF.uniques.map recKey) := by
  constructor
  · intro recs st h
    exact (createIndexLoop_true_inv recs filters initState st dupInv_init h).2.1
  · intro recs stF out h
    obtain ⟨st1, hl, hst, hout⟩ := createIndex_ok_elim true filters initState recs stF out h
    have hinv := createIndexLoop_true_inv recs filters initState st1 dupInv_init hl
    simp only [if_true] at hst
    have houtd : out = st1.dups := by rw [hout, hst]
    constructor
    · intro r hr
      rw [houtd] at hr ⊢
      exact hinv.2.2 r hr
    · intro r hr hc
      rw [houtd] at hr
      have hmem : recKey r ∈ st1.dups.map recKey := List.mem_map_of_mem recKey hr
      rw [hst] at hc
      exact hinv.2.1 (recKey r) ⟨hc, hmem⟩

/-- Witness for claim C3 on the concrete duplicates-mode run over
`[recA, recA2]`, whose loop state and final result are computed by `rfl`. -/
theorem createIndex_duplicates_partition_witness :
    ¬(recKey recA ∈ List.map recKey ([] : List FileRecord) ∧
        recKey recA ∈ List.map recKey [recA, recA2]) ∧
      2 ≤ List.countP (fun x => recKey x == recKey recA) [recA, recA2] ∧
      recKey recA ∉ List.map recKey ([] : List FileRecord) := by
  have h := createIndex_duplicates_partition []
  refine ⟨h.1 [recA, recA2]
    { files := [recA, recA2], uniques := [], dups := [recA, recA2],
      foundDuplicate := true } rfl (recKey recA), ?_, ?_⟩
  · exact (h.2 [recA, recA2]
      { files := [recA, recA2], uniques := [], dups := [recA, recA2],
        foundDuplicate := true } [recA, recA2] rfl).1 recA (by simp)
  · exact (h.2 [recA, recA2]
      { files := [recA, recA2], uniques := [], dups := [recA, recA2],
        foundDuplicate := true } [recA, recA2] rfl).2 recA (by simp)

/-- Claim C6 evaluated against the code: when every probe of a file raises,
the record is still produced with all seven fields — string probes fall
back to `"Parsing Error"`, numeric probes to `0` (so both timestamp fields
hold `ctime(0)`) — but the "File Extension" field becomes `"a"`, namely
`"Parsing Error"[1].lower()`: the subscript `[1]` is applied to the
sentinel string instead of a `(root, ext)` tuple, contradicting the
claimed `""`-or-sentinel fallback (the type is then looked up for
`"a"`). -/
theorem mkRecord_probeFailure_eval :
    mkRecord (fun _ => "epoch") []
      { join := none, abspath := none, basename := none, getsize := none,
        getatime := none, getctime := none, splitext := none } =
      { absolutePath := "Parsing Error", fileName := "Parsing Error", fileSize := 0,
        lastAccess := "epoch", creation := "epoch", fileExtension := "a",
        fileType := "other" } := rfl

/-- Counterexample to claim C8 as stated: on a root that cannot be opened,
`os.walk` (default `onerror=None`) silently yields nothing, so
`create_index` returns an empty list instead of failing with
`RootPathUnavailable`. -/
theorem createIndex_unavailableRoot_ok :
    createIndexFromWalk (fun _ => "") [] false [] initState unavailableRootWalk =
      .ok (initState, []) := rfl

/-- Claim C8 as amended: the builder never fails because of the root path —
an empty walk (whether from an empty traversable tree or from an
unopenable root, which `os.walk` swallows) yields an empty result list in
either mode, with any filters, even malformed ones. -/
theorem createIndex_emptyWalk (ct : ℤ → String) (types : List (String × List String))
    (dup : Bool) (filters : List (String × String)) :
    createIndexFromWalk ct types dup filters initState [] = .ok (initState, []) := by
  cases dup <;> rfl

/-- Counterexample to claim C9 as stated: filters are parsed lazily inside
the per-file loop, so a build over an empty tree with a malformed
`min_size` succeeds with an empty result instead of failing. -/
theorem createIndex_emptyTree_malformedFilter_ok :
    createIndex false [("min_size", "abc")] initState [] = .ok (initState, []) := rfl

/-- Claim C9 as amended: a malformed `min_size` filter string surfaces its
`__parse_size` error to the caller and aborts the whole build as soon as
the first probed record is filtered — so the build fails on every
non-empty tree, but not on an empty one. -/
theorem createIndex_malformedFilter (v : String) (e : PyErr) (dup : Bool)
    (st : IndexState) (r : FileRecord) (recs : List FileRecord)
    (hp : parseSize v = .error e) :
    createIndex dup [("min_size", v)] st (r :: recs) = .error e := by
  have happ : applyFilters [("min_size", v)] r = .error e := by
    simp only [applyFilters, List.foldlM, filterMethods, if_pos rfl, if_true, filterByMinSize,
      hp, bind, Except.bind]
  have hpr : processRecord dup [("min_size", v)] st r = .error e := by
    simp only [processRecord, happ, bind, Except.bind]
  simp only [createIndex, createIndexLoop, List.foldlM, hpr, bind, Except.bind]

/-- Witness for the amended claim C9: the malformed string `"abc"` aborts a
one-file build with the `InvalidSizeFormat` `ValueError`. -/
theorem createIndex_malformedFilter_witness :
    createIndex false [("min_size", "abc")] initState [recA] =
      .error (.valueError "Invalid argument string") :=
  createIndex_malformedFilter "abc" (.valueError "Invalid argument string") false initState
    recA [] rfl

/-- Claim C10: `create_index` never resets the accumulated state — the
returned list of a second call in non-duplicates mode extends the first
call's returned list (whatever the first call's mode and filters), and
with no filters the extension is exactly the newly walked records, each
appearing twice (see C2). -/
theorem createIndex_neverResets (dup1 : Bool) (f1 f2 : List (String × String))
    (st st1 st2 : IndexState) (out1 out2 : List FileRecord)
    (recs1 recs2 : List FileRecord)
    (hc1 : createIndex dup1 f1 st recs1 = .ok (st1, out1))
    (hc2 : createIndex false f2 st1 recs2 = .ok (st2, out2)) :
    (∃ t, out2 = out1 ++ t) ∧
      (f2 = [] → out2 = out1 ++ recs2.flatMap (fun r => [r, r])) := by
  obtain ⟨stA, hlA, hstA, houtA⟩ := createIndex_ok_elim dup1 f1 st recs1 st1 out1 hc1
  obtain ⟨stB, hlB, hstB, houtB⟩ := createIndex_ok_elim false f2 st1 recs2 st2 out2 hc2
  simp only [Bool.false_eq_true, if_false] at hstB
  have hout1 : out1 = st1.files := by rw [houtA, hstA]
  constructor
  · obtain ⟨⟨t, ht⟩, _, _⟩ := createIndexLoop_false_frame recs2 f2 st1 stB hlB
    exact ⟨t, by rw [houtB, hstB, ht, hout1]⟩
  · intro hf2
    subst hf2
    rw [createIndexLoop_false_nofilters recs2 st1] at hlB
    have hstB2 : stB = { st1 with files := st1.files ++ recs2.flatMap (fun r => [r, r]) } := by
      exact ((Except.ok.injEq _ _).mp hlB).symm
    rw [houtB, hstB, hstB2, hout1]

/-- Witness for claim C10: a first no-filter call over `[recA]` returns
`[recA, recA]`, and a second no-filter call over `[recB]` returns that
list extended with the new records. -/
theorem createIndex_neverResets_witness :
    ([recA, recA, recB, recB] : List FileRecord) =
      [recA, recA] ++ [recB].flatMap (fun r => [r, r]) :=
  (createIndex_neverResets false [] [] initState
    { files := [recA, recA], uniques := [], dups := [], foundDuplicate := false }
    { files := [recA, recA, recB, recB], uniques := [], dups := [],
      foundDuplicate := false }
    [recA, recA] [recA, recA, recB, recB] [recA] [recB] rfl rfl).2 rfl
